import Mathlib

/-!
Shallow embedding of the `tsrustacean` TypeScript library
(`src/types.ts`, `src/match.ts`, `src/derive.ts`, `src/lib/serde.ts`).

JavaScript runtime values are modelled by the inductive `JSVal`:
`null` and `undefined` are distinct values, numbers are integers
(the examples in the repository only exercise exact integer arithmetic),
and instances of the two wrapper classes `Option` and `Result` from
`src/types.ts` are modelled structurally:

* `Option<T>` stores `private value: T | null`; it is embedded as
  `JSVal.opt value` where the stored `value` being `JSVal.null` is the
  internal absence sentinel (`Option.none()` stores `null`).
* `Result<T, E>` stores `okValue: T | null` and `errValue: E | null`;
  it is embedded as `JSVal.res okValue errValue`.

An object's own enumerable properties are modelled as an association
list `Fields` in insertion order, which is exactly JavaScript's
iteration order for string keys as used by this library.
-/

inductive JSVal : Type where
  | null : JSVal
  | undefined : JSVal
  | num (n : Int) : JSVal
  | str (s : String) : JSVal
  | bool (b : Bool) : JSVal
  | opt (value : JSVal) : JSVal
  | res (okValue : JSVal) (errValue : JSVal) : JSVal
deriving DecidableEq, Repr

namespace JSVal

/-- `Option.some(value)` from `src/types.ts`: `new Option(value)`. -/
def optionSome (v : JSVal) : JSVal := .opt v

/-- `Option.none()` from `src/types.ts`: `new Option(null)`. -/
def optionNone : JSVal := .opt .null

/-- `Option.prototype.isSome`: `this.value !== null`.
On a non-`Option` value the method does not exist; we return `false`. -/
def isSome : JSVal → Bool
  | .opt v => v != .null
  | _ => false

/-- `Option.prototype.isNone`: `!this.isSome()`. -/
def isNone (v : JSVal) : Bool := !v.isSome

/-- `Option.prototype.unwrap`: throws on a `None` value, modelled with
`Except`; on a non-`Option` value the method does not exist. -/
def optionUnwrap : JSVal → Except String JSVal
  | .opt v =>
    if v = .null then .error "Called unwrap on a None value" else .ok v
  | _ => .error "unwrap is not a function"

/-- `Option.prototype.unwrapOr`: `this.isSome() ? this.value : defaultValue`. -/
def unwrapOr (v : JSVal) (defaultValue : JSVal) : JSVal :=
  match v with
  | .opt w => if w != .null then w else defaultValue
  | x => x

/-- `Result.ok(value)`: `new Result(value, null)`. -/
def resultOk (v : JSVal) : JSVal := .res v .null

/-- `Result.err(error)`: `new Result(null, error)`. -/
def resultErr (e : JSVal) : JSVal := .res .null e

/-- `Result.prototype.isOk`: `this.okValue !== null`. -/
def isOk : JSVal → Bool
  | .res ok _ => ok != .null
  | _ => false

/-- `Result.prototype.isErr`: `!this.isOk()`. -/
def isErr (v : JSVal) : Bool := !v.isOk

/-- `value instanceof Option`. -/
def isOptionInstance : JSVal → Bool
  | .opt _ => true
  | _ => false

/-- `value instanceof Result`. -/
def isResultInstance : JSVal → Bool
  | .res _ _ => true
  | _ => false

end JSVal

/-!
## The fluent matcher (`src/match.ts`, class `Match`)

`Match` stores the matched value and `private result?: U`.  An unset
result is the JavaScript value `undefined`, and the guards in the
chainable handlers test `this.result === undefined`; we model the
result slot as a `JSVal` initialised to `JSVal.undefined`, which keeps the
source's conflation of "no result yet" with "a handler returned
`undefined`".
-/

structure Match : Type where
  value : JSVal
  result : JSVal
deriving DecidableEq, Repr

namespace Match

/-- `Match.on(value)`: a fresh chain with no result captured. -/
def on' (value : JSVal) : Match := ⟨value, .undefined⟩

/-- `Match.prototype.some`: runs `fn` on the unwrapped value when no
result is captured yet, the value is an `Option` and it `isSome()`. -/
def some (m : Match) (fn : JSVal → JSVal) : Match :=
  if m.result = .undefined ∧ m.value.isOptionInstance ∧ m.value.isSome then
    match m.value with
    | .opt v => { m with result := fn v }
    | _ => m
  else m

/-- `Match.prototype.none`: runs `fn` when no result is captured yet,
the value is an `Option` and it `isNone()`. -/
def none (m : Match) (fn : Unit → JSVal) : Match :=
  if m.result = .undefined ∧ m.value.isOptionInstance ∧ m.value.isNone then
    { m with result := fn () }
  else m

/-- `Match.prototype.ok`: runs `fn` on the ok value when no result is
captured yet, the value is a `Result` and it `isOk()`. -/
def ok (m : Match) (fn : JSVal → JSVal) : Match :=
  if m.result = .undefined ∧ m.value.isResultInstance ∧ m.value.isOk then
    match m.value with
    | .res okv _ => { m with result := fn okv }
    | _ => m
  else m

/-- `Match.prototype.err`: runs `fn` on the error value when no result
is captured yet, the value is a `Result` and it `isErr()`. -/
def err (m : Match) (fn : JSVal → JSVal) : Match :=
  if m.result = .undefined ∧ m.value.isResultInstance ∧ m.value.isErr then
    match m.value with
    | .res _ errv => { m with result := fn errv }
    | _ => m
  else m

/-- `Match.prototype.default`:
`this.result !== undefined ? this.result : fn()`. -/
def dflt (m : Match) (fn : Unit → JSVal) : JSVal :=
  if m.result ≠ .undefined then m.result else fn ()

end Match

/-!
## The free `match` function (`src/match.ts`)

A `MatchPattern` holds optional handlers; an absent handler is the
JavaScript value `undefined` tested for truthiness, modelled with
`Option`.  The function throws `"No matching pattern"` when nothing
applies, modelled with `Except`.
-/

structure MatchPattern : Type where
  someHandler : Option (JSVal → JSVal)
  noneHandler : Option (Unit → JSVal)
  okHandler : Option (JSVal → JSVal)
  errHandler : Option (JSVal → JSVal)
  defaultHandler : Option (Unit → JSVal)

/-- The empty pattern `{}`: no handlers, no default. -/
def MatchPattern.empty : MatchPattern := ⟨none, none, none, none, none⟩

/-- The free function `match` from `src/match.ts` (named `matchFn`
here because `match` is reserved in Lean). -/
def matchFn (value : JSVal) (pattern : MatchPattern) : Except String JSVal :=
  let viaHandler : Option JSVal :=
    match value with
    | .opt v =>
      -- value instanceof Option: isSome() ⟺ v ≠ null, isNone() otherwise
      if v ≠ .null then pattern.someHandler.map (fun f => f v)
      else pattern.noneHandler.map (fun f => f ())
    | .res okv errv =>
      -- value instanceof Result: isOk() ⟺ okv ≠ null, isErr() otherwise
      if okv ≠ .null then pattern.okHandler.map (fun f => f okv)
      else pattern.errHandler.map (fun f => f errv)
    | _ => none
  match viaHandler with
  | some r => .ok r
  | none =>
    match pattern.defaultHandler with
    | some d => .ok (d ())
    | none => .error "No matching pattern"

/-!
## Objects and field metadata (`src/lib/serde.ts`)

An instance's own enumerable string-keyed properties are an
association list in insertion order.  Property read on a missing key
yields `undefined`; property write updates an existing key in place
and appends a new key at the end — JavaScript's own-property
semantics.
-/

abbrev Fields : Type := List (String × JSVal)

/-- Property read: `instance[key]`, `undefined` when absent. -/
def getField (inst : Fields) (k : String) : JSVal :=
  match List.lookup k (inst : List (String × JSVal)) with
  | some v => v
  | none => .undefined

/-- Property write: `instance[key] = v`. -/
def setField : Fields → String → JSVal → Fields
  | [], k, v => [(k, v)]
  | (k', v') :: rest, k, v =>
    if k' = k then (k', v) :: rest else (k', v') :: setField rest k v

/-- `Object.keys(instance)`. -/
def fieldKeys (inst : Fields) : List String :=
  (inst : List (String × JSVal)).map Prod.fst

/-- The per-field options stored by the `@serde` decorator
(interface `SerdeOptions` in `src/lib/serde.ts`).  A declared
`default` is either a plain value or a zero-argument factory,
matching the `typeof options.default === "function"` test. -/
inductive DefaultSpec : Type where
  | value (v : JSVal) : DefaultSpec
  | factory (f : Unit → JSVal) : DefaultSpec

structure SerdeOptions : Type where
  rename : Option String
  dflt : Option DefaultSpec
  serialize_with : Option (JSVal → JSVal)

/-- `{}`: the empty options object. -/
def SerdeOptions.empty : SerdeOptions := ⟨none, none, none⟩

/-- The metadata table attached to a class prototype under
`METADATA_KEY`: field name to options, in decoration order
(`Object.keys` order). -/
abbrev Metadata : Type := List (String × SerdeOptions)

/-- `metadata[key] || {}`. -/
def lookupOptions (md : Metadata) (k : String) : SerdeOptions :=
  match List.lookup k (md : List (String × SerdeOptions)) with
  | some o => o
  | none => SerdeOptions.empty

/-- `options.rename || key`: JavaScript `||`, so an empty-string
rename falls back to the field name. -/
def outKey (k : String) (o : SerdeOptions) : String :=
  match o.rename with
  | some r => if r = "" then k else r
  | none => k

/-- `value instanceof Option ? value.unwrapOr(null) : value`: the
internal slot of an `Option` is its value or the `null` sentinel, so
unwrapping yields exactly that slot. -/
def unwrapOption : JSVal → JSVal
  | .opt w => w
  | x => x

/-- `options.serialize_with ? options.serialize_with(unwrapped) :
unwrapped`. -/
def outValue (v : JSVal) (o : SerdeOptions) : JSVal :=
  match o.serialize_with with
  | some f => f (unwrapOption v)
  | none => unwrapOption v

/-- The `serialize` method installed by `serializePlugin.extendPrototype`:
iterate `Object.keys(this)`, rename, unwrap `Option`s, apply
`serialize_with`, and write into a fresh record. -/
def serialize (md : Metadata) (inst : Fields) : Fields :=
  (inst : List (String × JSVal)).foldl
    (fun result kv =>
      setField result (outKey kv.1 (lookupOptions md kv.1))
        (outValue kv.2 (lookupOptions md kv.1)))
    ([] : List (String × JSVal))

/-!
## Class schema and the Deserialize capability

A class derived with the `Deserialize` feature is summarised by:
the own fields a zero-argument `new` produces before init hooks run
(class field initialisers plus the base constructor body), the serde
metadata on its prototype, and which fields have `design:type`
metadata equal to the `Option` constructor.
-/

structure ClassSchema : Type where
  ctorFields : Fields
  metadata : Metadata
  optionTyped : List String

/-- `Reflect.getMetadata("design:type", instance, key) === Option`. -/
def propTypeIsOption (cls : ClassSchema) (k : String) : Bool :=
  cls.optionTyped.contains k

/-- `typeof options.default === "function" ? options.default() :
options.default`. -/
def applyDefault : DefaultSpec → JSVal
  | .value v => v
  | .factory f => f ()

/-- `deserializePlugin.initializeInstance` (the `Deserialize`
capability's init hook): for each metadata key, when a default is
declared and the field reads `undefined`, write the default (invoking
it when it is a function). -/
def initStep (inst : Fields) (ko : String × SerdeOptions) : Fields :=
  match ko.2.dflt with
  | some d =>
    if getField inst ko.1 = .undefined then setField inst ko.1 (applyDefault d)
    else inst
  | none => inst

def initInstance (md : Metadata) (inst : Fields) : Fields :=
  (md : List (String × SerdeOptions)).foldl initStep inst

/-- `new this()` on the derived class: the base constructor runs, then
the `Deserialize` feature's `initializeInstance` hook applies
defaults (the derived constructor calls each feature's hook in list
order; `Serialize` has none). -/
def newInstance (cls : ClassSchema) : Fields :=
  initInstance cls.metadata cls.ctorFields

/-- `propType === Option && value !== null ? Option.some(value) : value`. -/
def wrapIfOption (cls : ClassSchema) (k : String) (v : JSVal) : JSVal :=
  if propTypeIsOption cls k ∧ v ≠ .null then .opt v else v

/-- The `targetKey` computation inside `deserialize`: the first
metadata field whose `rename` equals the incoming key (the two
`find` calls over `Object.values` and `Object.keys` locate the same
first entry), else the incoming key itself.  When the incoming key is
the empty string a matching rename is falsy (`options.rename` is the
key) and the key itself is kept. -/
def targetKeyFor (cls : ClassSchema) (key : String) : String :=
  match (cls.metadata : List (String × SerdeOptions)).find?
      (fun p => p.2.rename == some key) with
  | some p => if key = "" then key else p.1
  | none => key

/-- One step of the `deserialize` static's loop over
`Object.entries(data)`: compute `targetKey`; `if (targetKey)` skips
only the falsy empty string; then assign, wrapping `Option`-typed
fields. -/
def deserializeStep (cls : ClassSchema) (inst : Fields) (kv : String × JSVal) : Fields :=
  let targetKey := targetKeyFor cls kv.1
  if targetKey == "" then inst
  else setField inst targetKey (wrapIfOption cls targetKey kv.2)

/-- The `deserialize` static installed by
`deserializePlugin.extendConstructor`. -/
def deserialize (cls : ClassSchema) (data : Fields) : Fields :=
  (data : List (String × JSVal)).foldl (deserializeStep cls) (newInstance cls)

/-- The `from` static installed by `deserializePlugin.extendConstructor`:
for each `Object.keys(source)` entry present on the instance (`key in
instance`; always by identical name, metadata renames are never
read), assign it, wrapping `Option`-typed fields.  Prototype members
are not modelled as fields, so `key in instance` is own-field
membership here. -/
def fromStep (cls : ClassSchema) (inst : Fields) (kv : String × JSVal) : Fields :=
  if (List.lookup kv.1 (inst : List (String × JSVal))).isSome then
    setField inst kv.1 (wrapIfOption cls kv.1 kv.2)
  else inst

def fromFn (cls : ClassSchema) (source : Fields) : Fields :=
  (source : List (String × JSVal)).foldl (fromStep cls) (newInstance cls)

/-!
## The composition engine (`src/derive.ts`)

A plugin's hooks act on an abstract class state `α` (the prototype
and constructor objects being mutated); `initializeInstance` acts on
instance fields.  The registry is the module-level
`pluginRegistry` record.  `derive` loops over the feature list: a
missing plugin produces a `console.warn` line and is skipped, a
present one has `extendPrototype` then `extendConstructor` applied.
The warning lines are collected as an explicit output.
-/

structure DerivePlugin (α : Type) : Type where
  feature : String
  extendPrototype : Option (α → α)
  extendConstructor : Option (α → α)
  initInstance : Option (Fields → Fields)

abbrev Registry (α : Type) : Type := List (String × DerivePlugin α)

/-- Apply an optional hook (`if (plugin.extendPrototype) ...`). -/
def applyHook {α : Type} (h : Option (α → α)) (c : α) : α :=
  match h with
  | some f => f c
  | none => c

/-- The hooks a registered plugin applies to the derived class, in
source order: `extendPrototype` then `extendConstructor`. -/
def applyPlugin {α : Type} (p : DerivePlugin α) (c : α) : α :=
  applyHook p.extendConstructor (applyHook p.extendPrototype c)

/-- The `console.warn` line for an unregistered feature. -/
def warnLine (feature : String) : String :=
  "No plugin registered for feature: " ++ feature

/-- The class-building loop of `derive` (lines 67–79 of
`src/derive.ts`), returning the derived class state together with the
warnings emitted. -/
def derive {α : Type} (reg : Registry α) (features : List String) (base : α) :
    α × List String :=
  features.foldl
    (fun acc feature =>
      match List.lookup feature (reg : List (String × DerivePlugin α)) with
      | none => (acc.1, acc.2 ++ [warnLine feature])
      | some p => (applyPlugin p acc.1, acc.2))
    (base, [])

/-- The derived constructor's init loop: after `super(...)`, each
feature's `initializeInstance` hook runs when the plugin exists and
defines one (`pluginRegistry[feature]?.initializeInstance`). -/
def runInits {α : Type} (reg : Registry α) (features : List String) (inst : Fields) :
    Fields :=
  features.foldl
    (fun inst feature =>
      match List.lookup feature (reg : List (String × DerivePlugin α)) with
      | none => inst
      | some p => applyHook p.initInstance inst)
    inst

/-!
## Derived auxiliary definitions and concrete schemas

`stripRenames` erases the `rename` and `serialize_with` annotations of
a metadata table but keeps the defaults; it is used to state that
`from` never consults renames.  `valueRoundTrips` states the shape
condition under which a field value survives a
serialize-then-deserialize round trip.  The concrete schemas below are
the classes of the repository's examples and tests.
-/

def stripRenames (md : Metadata) : Metadata :=
  md.map fun p => (p.1, ⟨none, p.2.dflt, none⟩)

def stripCls (cls : ClassSchema) : ClassSchema :=
  ⟨cls.ctorFields, stripRenames cls.metadata, cls.optionTyped⟩

/-- A field value that a serialize/deserialize round trip can restore:
a wrapper value must be `Some` of a non-`null` value on a field whose
declared type is `Option`, and a plain value must sit on a field not
declared `Option`. -/
def valueRoundTrips (cls : ClassSchema) (k : String) (v : JSVal) : Bool :=
  match v with
  | .opt w => propTypeIsOption cls k && w != .null
  | _ => !propTypeIsOption cls k

/-- `v => v / 100` on numbers, the `serialize_with` of the spec's
`balance` example (exact integer division on the example input). -/
def div100 : JSVal → JSVal
  | .num n => .num (n / 100)
  | x => x

/-- `v => v + 1` on numbers. -/
def incr : JSVal → JSVal
  | .num n => .num (n + 1)
  | x => x

/-- `v => v * 2` on numbers. -/
def dbl : JSVal → JSVal
  | .num n => .num (2 * n)
  | x => x

/-- Metadata of the spec's example field:
`balance` annotated `{rename: "bal", serialize_with: v => v / 100}`. -/
def balanceMeta : Metadata :=
  [("balance", ⟨some "bal", none, some div100⟩)]

/-- A class with a single plain field `id` and no serde metadata. -/
def plainIdClass : ClassSchema :=
  ⟨[("id", .str "a")], [], []⟩

/-- A class with a single `Option`-typed field `o` initialised to
`Option.none()`, and no serde metadata. -/
def optNoneClass : ClassSchema :=
  ⟨[("o", .opt .null)], [], ["o"]⟩

/-- A class with a plain field and an `Option`-typed field holding
`Option.some(1)`. -/
def optSomeClass : ClassSchema :=
  ⟨[("id", .str "x"), ("o", .opt (.num 1))], [], ["o"]⟩

/-- The `from` example's class: fields `id` and `balance`, with a
`rename` on `balance` showing `from` ignores it. -/
def userClass : ClassSchema :=
  ⟨[("id", .str ""), ("balance", .num 0)],
   [("balance", ⟨some "bal", none, none⟩)], []⟩

/-- A class with field `created_at` annotated
`{rename: "createdAt", default: "X"}` (as in the repository's test
`UserDTO`). -/
def defaultClass : ClassSchema :=
  ⟨[("id", .str "t")],
   [("created_at", ⟨some "createdAt", some (.value (.str "X")), none⟩)], []⟩

/-- A one-plugin registry over a toy class state `Bool` ("has the
Serialize method"). -/
def demoRegistry : Registry Bool :=
  [("Serialize", ⟨"Serialize", some (fun _ => true), none, none⟩)]

/-!
## Basic lemmas about property access
-/

theorem lookup_setField_self (inst : Fields) (k : String) (v : JSVal) :
    List.lookup k (setField inst k v : List (String × JSVal)) = some v := by
  induction inst with
  | nil => simp [setField, List.lookup]
  | cons hd tl ih =>
    obtain ⟨k', v'⟩ := hd
    by_cases h : k' = k
    · subst h
      simp [setField, List.lookup]
    · have hb : (k == k') = false := beq_eq_false_iff_ne.mpr (Ne.symm h)
      simp only [setField, if_neg h, List.lookup, hb]
      exact ih

theorem lookup_setField_ne (inst : Fields) (k k' : String) (v : JSVal)
    (h : k' ≠ k) :
    List.lookup k (setField inst k' v : List (String × JSVal))
      = List.lookup k (inst : List (String × JSVal)) := by
  have hb : (k == k') = false := beq_eq_false_iff_ne.mpr (Ne.symm h)
  induction inst with
  | nil => simp [setField, List.lookup, hb]
  | cons hd tl ih =>
    obtain ⟨k₀, v₀⟩ := hd
    by_cases h₀ : k₀ = k'
    · subst h₀
      simp only [setField, if_pos rfl, List.lookup, hb]
    · simp only [setField, if_neg h₀, List.lookup]
      cases hkk : (k == k₀) with
      | true => rfl
      | false => exact ih

theorem getField_setField_self (inst : Fields) (k : String) (v : JSVal) :
    getField (setField inst k v) k = v := by
  simp [getField, lookup_setField_self]

theorem getField_setField_ne (inst : Fields) (k k' : String) (v : JSVal)
    (h : k' ≠ k) : getField (setField inst k' v) k = getField inst k := by
  simp [getField, lookup_setField_ne _ _ _ _ h]

theorem lookup_isSome_iff_mem (inst : Fields) (k : String) :
    (List.lookup k (inst : List (String × JSVal))).isSome = true
      ↔ k ∈ fieldKeys inst := by
  induction inst with
  | nil => simp [List.lookup, fieldKeys]
  | cons hd tl ih =>
    obtain ⟨k', v'⟩ := hd
    by_cases h : k = k'
    · subst h
      simp [List.lookup, fieldKeys]
    · have hb : (k == k') = false := beq_eq_false_iff_ne.mpr h
      simp only [List.lookup, hb, fieldKeys, List.map_cons, List.mem_cons]
      simp only [fieldKeys] at ih
      rw [ih]
      constructor
      · exact Or.inr
      · rintro (rfl | hmem)
        · exact absurd rfl h
        · exact hmem

theorem setField_eq_append_of_not_mem (inst : Fields) (k : String) (v : JSVal)
    (h : k ∉ fieldKeys inst) :
    setField inst k v = (inst : List (String × JSVal)) ++ [(k, v)] := by
  induction inst with
  | nil => simp [setField]
  | cons hd tl ih =>
    obtain ⟨k', v'⟩ := hd
    simp only [fieldKeys, List.map_cons, List.mem_cons, not_or] at h
    simp only [setField, if_neg (Ne.symm h.1), List.cons_append, List.cons.injEq,
      true_and]
    exact ih (by simpa [fieldKeys] using h.2)

theorem fieldKeys_setField_of_mem (inst : Fields) (k : String) (v : JSVal)
    (h : k ∈ fieldKeys inst) :
    fieldKeys (setField inst k v) = fieldKeys inst := by
  induction inst with
  | nil => simp [fieldKeys] at h
  | cons hd tl ih =>
    obtain ⟨k', v'⟩ := hd
    by_cases h' : k' = k
    · subst h'
      simp [setField, fieldKeys]
    · simp only [fieldKeys, List.map_cons, List.mem_cons] at h
      rcases h with rfl | hmem
      · exact absurd rfl h'
      · simp only [setField, if_neg h', fieldKeys, List.map_cons, List.cons.injEq,
          true_and]
        exact ih hmem

theorem getField_eq_undef_of_not_mem (inst : Fields) (k : String)
    (h : k ∉ fieldKeys inst) : getField inst k = .undefined := by
  rw [getField]
  cases hl : List.lookup k (inst : List (String × JSVal)) with
  | none => rfl
  | some v =>
    exact absurd ((lookup_isSome_iff_mem inst k).mp (by simp [hl])) h

/-!
## Characterisation of `serialize`

When the emitted keys are pairwise distinct (the only situation the
library's schema declarations produce), the serialized record is
exactly one entry per own field, renamed and transformed, in field
order.
-/

theorem fieldKeys_append (a b : Fields) :
    fieldKeys (a ++ b) = fieldKeys a ++ fieldKeys b := by
  simp [fieldKeys]

theorem serialize_go (md : Metadata) :
    ∀ (l : List (String × JSVal)) (acc : Fields),
      (∀ kv ∈ l, outKey kv.1 (lookupOptions md kv.1) ∉ fieldKeys acc) →
      (l.map fun kv => outKey kv.1 (lookupOptions md kv.1)).Nodup →
      l.foldl (fun result kv =>
          setField result (outKey kv.1 (lookupOptions md kv.1))
            (outValue kv.2 (lookupOptions md kv.1))) acc
        = acc ++ l.map fun kv =>
            (outKey kv.1 (lookupOptions md kv.1),
             outValue kv.2 (lookupOptions md kv.1)) := by
  intro l
  induction l with
  | nil => intro acc _ _; simp
  | cons kv l ih =>
    intro acc hfresh hnodup
    simp only [List.foldl_cons, List.map_cons, List.nodup_cons] at hnodup ⊢
    have hk : outKey kv.1 (lookupOptions md kv.1) ∉ fieldKeys acc :=
      hfresh kv (List.mem_cons_self kv l)
    rw [setField_eq_append_of_not_mem acc _ _ hk]
    rw [ih _ ?_ hnodup.2]
    · simp
    · intro kv' hkv'
      rw [fieldKeys_append]
      simp only [fieldKeys, List.map_cons, List.map_nil, List.mem_append,
        List.mem_singleton, not_or]
      refine ⟨hfresh kv' (List.mem_cons_of_mem kv hkv'), ?_⟩
      intro heq
      exact hnodup.1 (heq ▸ List.mem_map_of_mem _ hkv')

theorem serialize_eq_map (md : Metadata) (inst : Fields)
    (h : (inst.map fun kv => outKey kv.1 (lookupOptions md kv.1)).Nodup) :
    serialize md inst
      = inst.map fun kv =>
          (outKey kv.1 (lookupOptions md kv.1),
           outValue kv.2 (lookupOptions md kv.1)) := by
  have := serialize_go md inst [] (by intro kv _; simp [fieldKeys]) h
  simpa [serialize] using this

/-!
## Lemmas about `initInstance` (default application)
-/

theorem mem_of_lookup_eq_some {β : Type} (l : List (String × β)) (k : String)
    (o : β) (h : List.lookup k l = some o) : (k, o) ∈ l := by
  induction l with
  | nil => simp [List.lookup] at h
  | cons hd tl ih =>
    obtain ⟨k', v'⟩ := hd
    by_cases hk : k = k'
    · subst hk
      simp only [List.lookup, beq_self_eq_true] at h
      cases h
      exact List.mem_cons_self _ _
    · have hb : (k == k') = false := beq_eq_false_iff_ne.mpr hk
      simp only [List.lookup, hb] at h
      exact List.mem_cons_of_mem _ (ih h)

theorem initStep_ne (inst : Fields) (ko : String × SerdeOptions) (k : String)
    (hk : ko.1 ≠ k) : getField (initStep inst ko) k = getField inst k := by
  rw [initStep]
  cases ko.2.dflt with
  | none => rfl
  | some d =>
    dsimp only
    by_cases hu : getField inst ko.1 = .undefined
    · rw [if_pos hu]
      exact getField_setField_ne inst k ko.1 (applyDefault d) hk
    · rw [if_neg hu]

theorem initStep_of_ne_undef (inst : Fields) (ko : String × SerdeOptions)
    (h : getField inst ko.1 ≠ .undefined) : initStep inst ko = inst := by
  rw [initStep]
  cases ko.2.dflt with
  | none => rfl
  | some d =>
    dsimp only
    rw [if_neg h]

theorem initStep_default (inst : Fields) (ko : String × SerdeOptions)
    (d : DefaultSpec) (hdf : ko.2.dflt = some d)
    (hu : getField inst ko.1 = .undefined) :
    initStep inst ko = setField inst ko.1 (applyDefault d) := by
  rw [initStep, hdf]
  dsimp only
  rw [if_pos hu]

theorem getField_initInstance_of_not_mem (md : Metadata) (inst : Fields)
    (k : String) (h : k ∉ md.map Prod.fst) :
    getField (initInstance md inst) k = getField inst k := by
  induction md generalizing inst with
  | nil => simp [initInstance]
  | cons hd md' ih =>
    simp only [List.map_cons, List.mem_cons, not_or] at h
    simp only [initInstance, List.foldl_cons]
    rw [show List.foldl initStep (initStep inst hd) md'
        = initInstance md' (initStep inst hd) from rfl]
    rw [ih _ h.2, initStep_ne inst hd k (Ne.symm h.1)]

theorem getField_initInstance_of_ne_undef (md : Metadata) (inst : Fields)
    (k : String) (h : getField inst k ≠ .undefined) :
    getField (initInstance md inst) k = getField inst k := by
  induction md generalizing inst with
  | nil => simp [initInstance]
  | cons hd md' ih =>
    simp only [initInstance, List.foldl_cons]
    rw [show List.foldl initStep (initStep inst hd) md'
        = initInstance md' (initStep inst hd) from rfl]
    by_cases hk : hd.1 = k
    · have : initStep inst hd = inst := initStep_of_ne_undef inst hd (hk ▸ h)
      rw [this]
      exact ih inst h
    · have he : getField (initStep inst hd) k = getField inst k :=
        initStep_ne inst hd k hk
      rw [ih _ (he ▸ h), he]

theorem getField_initInstance_default (md : Metadata) (inst : Fields)
    (k : String) (o : SerdeOptions) (d : DefaultSpec)
    (hnd : (md.map Prod.fst).Nodup)
    (hlk : List.lookup k md = some o) (hdf : o.dflt = some d)
    (hu : getField inst k = .undefined) :
    getField (initInstance md inst) k = applyDefault d := by
  induction md generalizing inst with
  | nil => simp [List.lookup] at hlk
  | cons hd md' ih =>
    obtain ⟨k₀, o₀⟩ := hd
    simp only [List.map_cons, List.nodup_cons] at hnd
    simp only [initInstance, List.foldl_cons]
    rw [show List.foldl initStep (initStep inst (k₀, o₀)) md'
        = initInstance md' (initStep inst (k₀, o₀)) from rfl]
    by_cases hk : k = k₀
    · subst hk
      simp only [List.lookup, beq_self_eq_true] at hlk
      cases hlk
      rw [initStep_default inst (k, o) d hdf hu]
      rw [getField_initInstance_of_not_mem md' _ k hnd.1]
      exact getField_setField_self inst k (applyDefault d)
    · have hb : (k == k₀) = false := beq_eq_false_iff_ne.mpr hk
      simp only [List.lookup, hb] at hlk
      have he : getField (initStep inst (k₀, o₀)) k = getField inst k :=
        initStep_ne inst (k₀, o₀) k (Ne.symm hk)
      exact ih _ hnd.2 hlk (he.trans hu)

/-!
## Lemmas about `deserialize` and `from`
-/

theorem targetKeyFor_of_no_rename (cls : ClassSchema) (key : String)
    (h : (cls.metadata : List (String × SerdeOptions)).find?
        (fun p => p.2.rename == some key) = none) :
    targetKeyFor cls key = key := by
  rw [targetKeyFor, h]

theorem find?_rename_eq_none (cls : ClassSchema) (key : String)
    (h : ∀ p ∈ cls.metadata, p.2.rename = none) :
    (cls.metadata : List (String × SerdeOptions)).find?
        (fun p => p.2.rename == some key) = none := by
  rw [List.find?_eq_none]
  intro p hp
  simp [h p hp]

theorem deserializeStep_eq (cls : ClassSchema) (inst : Fields)
    (kv : String × JSVal) (hk : targetKeyFor cls kv.1 = kv.1)
    (hne : kv.1 ≠ "") :
    deserializeStep cls inst kv
      = setField inst kv.1 (wrapIfOption cls kv.1 kv.2) := by
  rw [deserializeStep]
  simp only [hk]
  rw [if_neg (by simpa using hne)]

theorem getField_deserialize_go_untouched (cls : ClassSchema) :
    ∀ (data : List (String × JSVal)) (acc : Fields) (k : String),
      (∀ kv ∈ data, targetKeyFor cls kv.1 ≠ k) →
      getField (data.foldl (deserializeStep cls) acc) k = getField acc k := by
  intro data
  induction data with
  | nil => intro acc k _; rfl
  | cons kv data' ih =>
    intro acc k h
    simp only [List.foldl_cons]
    rw [ih _ k fun kv' h' => h kv' (List.mem_cons_of_mem kv h')]
    rw [deserializeStep]
    by_cases hz : targetKeyFor cls kv.1 = ""
    · simp [hz]
    · dsimp only
      rw [if_neg (by simpa using hz)]
      exact getField_setField_ne acc k _ _ (h kv (List.mem_cons_self kv data'))

theorem getField_deserialize_go_assigned (cls : ClassSchema) :
    ∀ (data : List (String × JSVal)) (acc : Fields) (k : String) (v : JSVal),
      (data.map Prod.fst).Nodup →
      (∀ kv ∈ data, targetKeyFor cls kv.1 = kv.1 ∧ kv.1 ≠ "") →
      (k, v) ∈ data →
      getField (data.foldl (deserializeStep cls) acc) k
        = wrapIfOption cls k v := by
  intro data
  induction data with
  | nil => intro acc k v _ _ hmem; simp at hmem
  | cons kv data' ih =>
    intro acc k v hnd hok hmem
    simp only [List.map_cons, List.nodup_cons] at hnd
    simp only [List.foldl_cons]
    rcases List.mem_cons.mp hmem with heq | hmem'
    · cases heq
      rw [getField_deserialize_go_untouched cls data' _ k ?_]
      · rw [deserializeStep_eq cls acc (k, v)
            (hok (k, v) (List.mem_cons_self _ _)).1
            (hok (k, v) (List.mem_cons_self _ _)).2]
        exact getField_setField_self acc k _
      · intro kv' h'
        rw [(hok kv' (List.mem_cons_of_mem _ h')).1]
        intro heq'
        have hm : kv'.1 ∈ data'.map Prod.fst := List.mem_map_of_mem Prod.fst h'
        rw [heq'] at hm
        exact hnd.1 hm
    · exact ih _ k v hnd.2
        (fun kv' h' => hok kv' (List.mem_cons_of_mem kv h')) hmem'

theorem getField_fromFn_go_untouched (cls : ClassSchema) :
    ∀ (source : List (String × JSVal)) (acc : Fields) (k : String),
      (∀ kv ∈ source, kv.1 ≠ k) →
      getField (source.foldl (fromStep cls) acc) k = getField acc k := by
  intro source
  induction source with
  | nil => intro acc k _; rfl
  | cons kv source' ih =>
    intro acc k h
    simp only [List.foldl_cons]
    rw [ih _ k fun kv' h' => h kv' (List.mem_cons_of_mem kv h')]
    rw [fromStep]
    by_cases hs : (List.lookup kv.1 (acc : List (String × JSVal))).isSome
    · rw [if_pos hs]
      exact getField_setField_ne acc k _ _ (h kv (List.mem_cons_self kv source'))
    · rw [if_neg hs]

theorem fieldKeys_fromFn_go (cls : ClassSchema) :
    ∀ (source : List (String × JSVal)) (acc : Fields),
      fieldKeys (source.foldl (fromStep cls) acc) = fieldKeys acc := by
  intro source
  induction source with
  | nil => intro acc; rfl
  | cons kv source' ih =>
    intro acc
    simp only [List.foldl_cons]
    rw [ih]
    rw [fromStep]
    by_cases hs : (List.lookup kv.1 (acc : List (String × JSVal))).isSome
    · rw [if_pos hs]
      exact fieldKeys_setField_of_mem acc kv.1 _
        ((lookup_isSome_iff_mem acc kv.1).mp hs)
    · rw [if_neg hs]

theorem getField_fromFn_go_assigned (cls : ClassSchema) :
    ∀ (source : List (String × JSVal)) (acc : Fields) (k : String) (v : JSVal),
      (source.map Prod.fst).Nodup →
      List.lookup k source = some v →
      k ∈ fieldKeys acc →
      getField (source.foldl (fromStep cls) acc) k = wrapIfOption cls k v := by
  intro source
  induction source with
  | nil => intro acc k v _ hlk _; simp [List.lookup] at hlk
  | cons kv source' ih =>
    intro acc k v hnd hlk hmem
    obtain ⟨k₀, v₀⟩ := kv
    simp only [List.map_cons, List.nodup_cons] at hnd
    simp only [List.foldl_cons]
    by_cases hk : k = k₀
    · subst hk
      simp only [List.lookup, beq_self_eq_true] at hlk
      cases hlk
      rw [getField_fromFn_go_untouched cls source' _ k ?_]
      · rw [fromStep]
        dsimp only
        rw [if_pos ((lookup_isSome_iff_mem acc k).mpr hmem)]
        exact getField_setField_self acc k _
      · intro kv' h' heq'
        have hm : kv'.1 ∈ source'.map Prod.fst := List.mem_map_of_mem Prod.fst h'
        rw [heq'] at hm
        exact hnd.1 hm
    · have hb : (k == k₀) = false := beq_eq_false_iff_ne.mpr hk
      simp only [List.lookup, hb] at hlk
      refine ih _ k v hnd.2 hlk ?_
      rw [fromStep]
      dsimp only
      by_cases hs : (List.lookup k₀ (acc : List (String × JSVal))).isSome
      · rw [if_pos hs]
        rw [fieldKeys_setField_of_mem acc k₀ _
          ((lookup_isSome_iff_mem acc k₀).mp hs)]
        exact hmem
      · rw [if_neg hs]
        exact hmem

/-!
## Lemmas about `derive`
-/

theorem derive_go {α : Type} (reg : Registry α) :
    ∀ (features : List String) (c : α) (w : List String),
      features.foldl
        (fun acc feature =>
          match List.lookup feature (reg : List (String × DerivePlugin α)) with
          | none => (acc.1, acc.2 ++ [warnLine feature])
          | some p => (applyPlugin p acc.1, acc.2))
        (c, w)
      = ((features.filterMap fun f =>
            List.lookup f (reg : List (String × DerivePlugin α))).foldl
            (fun c p => applyPlugin p c) c,
         w ++ (features.filter fun f =>
            (List.lookup f (reg : List (String × DerivePlugin α))).isNone).map
              warnLine) := by
  intro features
  induction features with
  | nil => intro c w; simp
  | cons f fs ih =>
    intro c w
    simp only [List.foldl_cons]
    cases hf : List.lookup f (reg : List (String × DerivePlugin α)) with
    | none =>
      dsimp only
      rw [ih]
      simp [List.filterMap_cons, List.filter_cons, hf]
    | some p =>
      dsimp only
      rw [ih]
      simp [List.filterMap_cons, List.filter_cons, hf]

theorem runInits_go {α : Type} (reg : Registry α) :
    ∀ (features : List String) (inst : Fields),
      runInits reg features inst
        = (features.filterMap fun f =>
            List.lookup f (reg : List (String × DerivePlugin α))).foldl
            (fun i p => applyHook p.initInstance i) inst := by
  intro features
  induction features with
  | nil => intro inst; rfl
  | cons f fs ih =>
    intro inst
    simp only [runInits, List.foldl_cons, List.filterMap_cons]
    cases hf : List.lookup f (reg : List (String × DerivePlugin α)) with
    | none =>
      dsimp only
      simpa [runInits] using ih inst
    | some p =>
      dsimp only
      simpa [runInits] using ih (applyHook p.initInstance inst)

/-!
## Claim theorems
-/

/-- C9: the `Option` type uses `null` as its internal absence
sentinel, so `Option.some(null)` reports `isSome() === false`,
`isNone() === true`, `unwrap()` throws, and is indistinguishable from
`Option.none()`; no `Option` reports `isSome` while holding `null`. -/
theorem option_c9_null_sentinel :
    JSVal.optionSome .null = JSVal.optionNone
    ∧ (JSVal.optionSome .null).isSome = false
    ∧ (JSVal.optionSome .null).isNone = true
    ∧ (JSVal.optionSome .null).optionUnwrap
        = .error "Called unwrap on a None value"
    ∧ (∀ w : JSVal, (JSVal.opt w).isSome = true → w ≠ .null) := by
  refine ⟨rfl, rfl, rfl, rfl, ?_⟩
  intro w h
  simpa [JSVal.isSome] using h

/-- Witness for C9: the last conjunct applied to the `Some(1)`
wrapper. -/
theorem option_c9_null_sentinel_witness : JSVal.num 1 ≠ JSVal.null :=
  option_c9_null_sentinel.2.2.2.2 (.num 1) (by decide)

/-- C7: in a `Match.on` chain a handler runs only if no earlier
handler captured a result and the value is in the handler's state: a
chain whose result slot is occupied is left unchanged by `some`,
`none`, `ok` and `err`, a `some` handler is skipped when the value is
not a `Some` option, and the spec's chain
`on(some(42)).some(v=>v+1).some(v=>v*2).none(()=>0).default(()=>-1)`
evaluates to `43`. -/
theorem match_c7_first_wins :
    (∀ (m : Match) (f : JSVal → JSVal), m.result ≠ .undefined →
        m.some f = m ∧ m.ok f = m ∧ m.err f = m)
    ∧ (∀ (m : Match) (f : Unit → JSVal), m.result ≠ .undefined → m.none f = m)
    ∧ (∀ (m : Match) (f : JSVal → JSVal),
        ¬(m.value.isOptionInstance = true ∧ m.value.isSome = true) →
        m.some f = m)
    ∧ ((((Match.on' (JSVal.optionSome (.num 42))).some incr).some dbl).none
        (fun _ => .num 0)).dflt (fun _ => .num (-1)) = .num 43 := by
  refine ⟨?_, ?_, ?_, by decide⟩
  · intro m f h
    refine ⟨?_, ?_, ?_⟩
    · rw [Match.some, if_neg (by tauto)]
    · rw [Match.ok, if_neg (by tauto)]
    · rw [Match.err, if_neg (by tauto)]
  · intro m f h
    rw [Match.none, if_neg (by tauto)]
  · intro m f h
    rw [Match.some, if_neg (by tauto)]

/-- Witness for C7: a chain that already captured `43` ignores a later
`some` handler. -/
theorem match_c7_first_wins_witness :
    (Match.mk (JSVal.optionSome (.num 42)) (.num 43)).some dbl
      = Match.mk (JSVal.optionSome (.num 42)) (.num 43) :=
  (match_c7_first_wins.1 ⟨JSVal.optionSome (.num 42), .num 43⟩ dbl
    (by decide)).1

/-- C10: the chain records whether an earlier handler matched by
testing the stored result against `undefined`, so a matching handler
that returns `undefined` is not captured and the default still runs;
in particular `on(some(42)).some(v => undefined).default(fn)` returns
`fn()`. -/
theorem match_c10_undefined_result :
    (∀ (m : Match) (f : JSVal → JSVal) (v : JSVal),
        m.value = .opt v → v ≠ .null → m.result = .undefined → f v = .undefined →
        (m.some f).result = .undefined)
    ∧ (∀ (m : Match) (g : Unit → JSVal), m.result = .undefined → m.dflt g = g ())
    ∧ ((Match.on' (JSVal.optionSome (.num 42))).some (fun _ => .undefined)).dflt
        (fun _ => .str "D") = .str "D" := by
  refine ⟨?_, ?_, by decide⟩
  · intro m f v hv hnn hr hf
    obtain ⟨val, res⟩ := m
    cases hv
    cases hr
    rw [Match.some, if_pos ?_]
    · simpa using hf
    · refine ⟨rfl, rfl, ?_⟩
      simpa [JSVal.isSome] using hnn
  · intro m g h
    rw [Match.dflt, if_neg (fun hc => hc h)]

/-- Witness for C10: the concrete chain with an `undefined`-returning
handler. -/
theorem match_c10_undefined_result_witness :
    ((Match.on' (JSVal.optionSome (.num 42))).some (fun _ => .undefined)).result
        = .undefined
    ∧ (Match.on' (JSVal.optionSome (.num 42))).dflt (fun _ => .str "D")
        = .str "D" :=
  ⟨match_c10_undefined_result.1 (Match.on' (JSVal.optionSome (.num 42)))
      (fun _ => .undefined) (.num 42) rfl (by decide) rfl rfl,
   match_c10_undefined_result.2.1 (Match.on' (JSVal.optionSome (.num 42)))
      (fun _ => .str "D") rfl⟩

/-- C8: the free `match` returns the matching handler's result when
one is supplied, otherwise falls through to the `default` handler when
supplied, and with no matching handler and no default — in particular
`match(value, {})` — it fails with the `"No matching pattern"` error. -/
theorem match_c8_free :
    (∀ (v : JSVal) (p : MatchPattern) (f : JSVal → JSVal),
        v ≠ .null → p.someHandler = some f → matchFn (.opt v) p = .ok (f v))
    ∧ (∀ (p : MatchPattern) (f : Unit → JSVal),
        p.noneHandler = some f → matchFn (.opt .null) p = .ok (f ()))
    ∧ (∀ (okv errv : JSVal) (p : MatchPattern) (f : JSVal → JSVal),
        okv ≠ .null → p.okHandler = some f →
        matchFn (.res okv errv) p = .ok (f okv))
    ∧ (∀ (errv : JSVal) (p : MatchPattern) (f : JSVal → JSVal),
        p.errHandler = some f → matchFn (.res .null errv) p = .ok (f errv))
    ∧ (∀ (v : JSVal) (p : MatchPattern) (d : Unit → JSVal),
        v ≠ .null → p.someHandler = none → p.defaultHandler = some d →
        matchFn (.opt v) p = .ok (d ()))
    ∧ (∀ (value : JSVal) (p : MatchPattern) (d : Unit → JSVal),
        value.isOptionInstance = false → value.isResultInstance = false →
        p.defaultHandler = some d → matchFn value p = .ok (d ()))
    ∧ (∀ value : JSVal,
        matchFn value MatchPattern.empty = .error "No matching pattern") := by
  refine ⟨?_, ?_, ?_, ?_, ?_, ?_, ?_⟩
  · intro v p f hv hp
    simp [matchFn, hv, hp]
  · intro p f hp
    simp [matchFn, hp]
  · intro okv errv p f hv hp
    simp [matchFn, hv, hp]
  · intro errv p f hp
    simp [matchFn, hp]
  · intro v p d hv hs hd
    simp [matchFn, hv, hs, hd]
  · intro value p d ho hr hd
    cases value <;> simp_all [matchFn, JSVal.isOptionInstance,
      JSVal.isResultInstance]
  · intro value
    cases value <;> simp [matchFn, MatchPattern.empty]

/-- Witness for C8: the fallthrough example
`match(some(42), {default: () => "D"}) = "D"`, obtained from the
theorem at concrete inputs. -/
theorem match_c8_free_witness :
    matchFn (JSVal.optionSome (.num 42))
        { MatchPattern.empty with defaultHandler := some fun _ => .str "D" }
      = .ok (.str "D") :=
  match_c8_free.2.2.2.2.1 (.num 42)
    { MatchPattern.empty with defaultHandler := some fun _ => .str "D" }
    (fun _ => .str "D") (by decide) rfl rfl

/-- C6: composing with a feature list containing an unregistered name
emits a non-fatal warning line for that name, throws nothing (the
composition is a total function), applies no hooks for it, and still
applies the hooks of every registered feature in list order, returning
the derived class: the warnings are exactly the warn lines of the
unregistered names, and the derived class and the instance-init pass
are the folds over the registered plugins only. -/
theorem derive_c6_unknown_feature :
    ∀ (α : Type) (reg : Registry α) (features : List String) (base : α)
      (inst : Fields),
      ((derive reg features base).2
          = (features.filter fun f =>
              (List.lookup f (reg : List (String × DerivePlugin α))).isNone).map
              warnLine)
      ∧ ((derive reg features base).1
          = (features.filterMap fun f =>
              List.lookup f (reg : List (String × DerivePlugin α))).foldl
              (fun c p => applyPlugin p c) base)
      ∧ (runInits reg features inst
          = (features.filterMap fun f =>
              List.lookup f (reg : List (String × DerivePlugin α))).foldl
              (fun i p => applyHook p.initInstance i) inst)
      ∧ (∀ f ∈ features,
          List.lookup f (reg : List (String × DerivePlugin α)) = none →
          warnLine f ∈ (derive reg features base).2) := by
  intro α reg features base inst
  have hd := derive_go reg features base []
  refine ⟨?_, ?_, runInits_go reg features inst, ?_⟩
  · rw [derive, hd]
    simp
  · rw [derive, hd]
  · intro f hf hnone
    rw [derive, hd]
    simp only [List.nil_append, List.mem_map]
    exact ⟨f, List.mem_filter.mpr ⟨hf, by simp [hnone]⟩, rfl⟩

/-- Witness for C6: the demo registry knows `Serialize` but not
`Nope`; deriving with `["Serialize", "Nope"]` warns about `Nope`. -/
theorem derive_c6_unknown_feature_witness :
    warnLine "Nope" ∈ (derive demoRegistry ["Serialize", "Nope"] false).2 :=
  (derive_c6_unknown_feature Bool demoRegistry ["Serialize", "Nope"] false
    []).2.2.2 "Nope" (by simp) rfl

/-!
## Round-trip helper lemmas
-/

theorem wrapIfOption_unwrapOption (cls : ClassSchema) (k : String) (v : JSVal)
    (h : valueRoundTrips cls k v = true) :
    wrapIfOption cls k (unwrapOption v) = v := by
  cases v with
  | opt w =>
    simp only [valueRoundTrips, Bool.and_eq_true, bne_iff_ne] at h
    simp [unwrapOption, wrapIfOption, h.1, h.2]
  | null => simp_all [valueRoundTrips, unwrapOption, wrapIfOption]
  | undefined => simp_all [valueRoundTrips, unwrapOption, wrapIfOption]
  | num n => simp_all [valueRoundTrips, unwrapOption, wrapIfOption]
  | str s => simp_all [valueRoundTrips, unwrapOption, wrapIfOption]
  | bool b => simp_all [valueRoundTrips, unwrapOption, wrapIfOption]
  | res a b => simp_all [valueRoundTrips, unwrapOption, wrapIfOption]

theorem initStep_stripped (inst : Fields) (ko : String × SerdeOptions) :
    initStep inst (ko.1, ⟨none, ko.2.dflt, none⟩) = initStep inst ko := rfl

theorem initInstance_stripRenames (md : Metadata) :
    ∀ inst : Fields, initInstance (stripRenames md) inst = initInstance md inst := by
  induction md with
  | nil => intro inst; rfl
  | cons ko md' ih =>
    intro inst
    simp only [stripRenames, List.map_cons, initInstance, List.foldl_cons]
    rw [initStep_stripped inst ko]
    simpa [initInstance, stripRenames] using ih (initStep inst ko)

/-- C1: `serialize()` emits, for each own enumerable field `k` with
value `v`, one entry under `options.rename || k` holding `v` unwrapped
from the `Option` wrapper (to its value or `null`) and then passed
through `serialize_with` when declared — one entry per field, in field
order, whenever the emitted keys are distinct; in particular a field
`balance` annotated `{rename: "bal", serialize_with: v => v/100}`
holding `10000` serializes to `{bal: 100}`. -/
theorem serde_c1_serialize :
    (∀ (md : Metadata) (inst : Fields),
        ((inst : List (String × JSVal)).map fun kv =>
            outKey kv.1 (lookupOptions md kv.1)).Nodup →
        serialize md inst
          = (inst : List (String × JSVal)).map fun kv =>
              (outKey kv.1 (lookupOptions md kv.1),
               outValue kv.2 (lookupOptions md kv.1)))
    ∧ serialize balanceMeta [("balance", .num 10000)]
        = [("bal", .num 100)] :=
  ⟨serialize_eq_map, by decide⟩

/-- Witness for C1: the characterisation applied to the spec's
`balance` example. -/
theorem serde_c1_serialize_witness :
    serialize balanceMeta [("balance", JSVal.num 10000)]
      = ([("balance", JSVal.num 10000)] : Fields).map fun kv =>
          (outKey kv.1 (lookupOptions balanceMeta kv.1),
           outValue kv.2 (lookupOptions balanceMeta kv.1)) :=
  serde_c1_serialize.1 balanceMeta [("balance", JSVal.num 10000)] (by decide)

/-- C2 counterexample: on a class with field `id` and no metadata,
`deserialize({junk: 5})` does NOT ignore the unknown key `junk` — it
assigns it onto the resulting instance as a new own property, so the
claim that such a key "is not assigned onto the resulting instance"
fails at this input. -/
theorem serde_c2_counterexample :
    deserialize plainIdClass [("junk", .num 5)]
        = [("id", .str "a"), ("junk", .num 5)]
    ∧ getField (deserialize plainIdClass [("junk", .num 5)]) "junk"
        = .num 5
    ∧ getField (deserialize plainIdClass [("junk", .num 5)]) "junk"
        ≠ .undefined := by
  exact ⟨by decide, by decide, by decide⟩

/-- C2 (amended): a key of the input record that matches no declared
rename is assigned onto the resulting instance under its own name —
also when it is not a field of the class, in which case it becomes a
new own property — and causes no error (only an empty-string key is
skipped, being falsy). -/
theorem serde_c2_amended :
    ∀ (cls : ClassSchema) (key : String) (v : JSVal),
      key ≠ "" →
      (cls.metadata : List (String × SerdeOptions)).find?
          (fun p => p.2.rename == some key) = none →
      getField (deserialize cls [(key, v)]) key = wrapIfOption cls key v := by
  intro cls key v hne hfind
  rw [deserialize, List.foldl_cons, List.foldl_nil]
  rw [deserializeStep_eq cls _ (key, v)
    (targetKeyFor_of_no_rename cls key hfind) hne]
  exact getField_setField_self _ key _

/-- Witness for C2's amended theorem: the unknown key `junk` is
assigned onto a `plainIdClass` instance. -/
theorem serde_c2_amended_witness :
    getField (deserialize plainIdClass [("junk", JSVal.num 5)]) "junk"
      = wrapIfOption plainIdClass "junk" (.num 5) :=
  serde_c2_amended plainIdClass "junk" (.num 5) (by decide) rfl

/-- C3: a field with a declared default whose value is `undefined`
after the base constructor is set to the default (invoking a
zero-argument factory) by the init hook that runs on construction; a
field whose value was provided (is not `undefined`) is not
overwritten; and the `deserialize` and `from` paths both start from
the same initialised instance, preserving it at every key their input
does not touch. -/
theorem serde_c3_defaults :
    (∀ (cls : ClassSchema) (k : String) (o : SerdeOptions) (d : DefaultSpec),
        ((cls.metadata : List (String × SerdeOptions)).map Prod.fst).Nodup →
        List.lookup k (cls.metadata : List (String × SerdeOptions)) = some o →
        o.dflt = some d →
        getField cls.ctorFields k = .undefined →
        getField (newInstance cls) k = applyDefault d)
    ∧ (∀ (cls : ClassSchema) (k : String),
        getField cls.ctorFields k ≠ .undefined →
        getField (newInstance cls) k = getField cls.ctorFields k)
    ∧ (∀ (cls : ClassSchema) (data : Fields) (k : String),
        (∀ kv ∈ (data : List (String × JSVal)), targetKeyFor cls kv.1 ≠ k) →
        getField (deserialize cls data) k = getField (newInstance cls) k)
    ∧ (∀ (cls : ClassSchema) (source : Fields) (k : String),
        (∀ kv ∈ (source : List (String × JSVal)), kv.1 ≠ k) →
        getField (fromFn cls source) k = getField (newInstance cls) k) := by
  refine ⟨?_, ?_, ?_, ?_⟩
  · intro cls k o d hnd hlk hdf hu
    exact getField_initInstance_default cls.metadata cls.ctorFields k o d hnd
      hlk hdf hu
  · intro cls k h
    exact getField_initInstance_of_ne_undef cls.metadata cls.ctorFields k h
  · intro cls data k h
    exact getField_deserialize_go_untouched cls data (newInstance cls) k h
  · intro cls source k h
    exact getField_fromFn_go_untouched cls source (newInstance cls) k h

/-- Witness for C3: `defaultClass` declares
`created_at: {default: "X"}`; after zero-argument construction the
field equals `"X"` while the explicitly initialised `id` keeps its
constructor value, also through a `deserialize` that does not mention
either field. -/
theorem serde_c3_defaults_witness :
    getField (newInstance defaultClass) "created_at" = .str "X"
    ∧ getField (newInstance defaultClass) "id" = .str "t"
    ∧ getField (deserialize defaultClass [("other", .num 1)]) "created_at"
        = getField (newInstance defaultClass) "created_at" := by
  refine ⟨?_, ?_, ?_⟩
  · exact serde_c3_defaults.1 defaultClass "created_at"
      ⟨some "createdAt", some (.value (.str "X")), none⟩ (.value (.str "X"))
      (by decide) rfl rfl (by decide)
  · exact (serde_c3_defaults.2.1 defaultClass "id" (by decide)).trans
      (by decide)
  · exact serde_c3_defaults.2.2.1 defaultClass [("other", .num 1)]
      "created_at" (by decide)

/-- C4 counterexample: on a class whose `Option`-typed field `o` holds
`Option.none()` (and carries no rename/transform),
`deserialize(serialize())` yields `o === null` — a raw `null`, not an
`Option` wrapper — so the field value does not equal the original
`Option.none()` and the round-trip claim fails at this input. -/
theorem serde_c4_counterexample :
    getField (deserialize optNoneClass
        (serialize optNoneClass.metadata [("o", .opt .null)])) "o" = .null
    ∧ JSVal.null ≠ JSVal.opt .null
    ∧ getField ([("o", JSVal.opt .null)] : Fields) "o" = .opt .null := by
  exact ⟨by decide, by decide, by decide⟩

/-- C4 (amended): for a class whose fields carry no rename and no
transform, `deserialize(serialize())` reproduces every field value of
the original instance, provided each field holding an `Option` wrapper
is declared `Option`-typed and holds a non-`null` value and each other
field is not declared `Option`-typed; an `Option` field holding `None`
comes back as raw `null` instead (see the counterexample). -/
theorem serde_c4_roundtrip :
    ∀ (cls : ClassSchema) (inst : Fields),
      (∀ p ∈ (cls.metadata : List (String × SerdeOptions)),
          p.2.rename = none ∧ p.2.serialize_with = none) →
      (fieldKeys inst).Nodup →
      (∀ kv ∈ (inst : List (String × JSVal)),
          kv.1 ≠ "" ∧ valueRoundTrips cls kv.1 kv.2 = true) →
      ∀ kv ∈ (inst : List (String × JSVal)),
        getField (deserialize cls (serialize cls.metadata inst)) kv.1 = kv.2 := by
  intro cls inst hplain hnd hvals kv hkv
  have hopts : ∀ k : String,
      (lookupOptions cls.metadata k).rename = none
      ∧ (lookupOptions cls.metadata k).serialize_with = none := by
    intro k
    rw [lookupOptions]
    cases hl : List.lookup k (cls.metadata : List (String × SerdeOptions)) with
    | none => exact ⟨rfl, rfl⟩
    | some o => exact hplain (k, o) (mem_of_lookup_eq_some _ k o hl)
  have hfun : (fun kv : String × JSVal =>
        (outKey kv.1 (lookupOptions cls.metadata kv.1),
         outValue kv.2 (lookupOptions cls.metadata kv.1)))
      = fun kv : String × JSVal => (kv.1, unwrapOption kv.2) := by
    funext kv'
    rw [outKey, (hopts kv'.1).1, outValue, (hopts kv'.1).2]
  have hkeys : ((inst : List (String × JSVal)).map fun kv =>
        outKey kv.1 (lookupOptions cls.metadata kv.1)) = fieldKeys inst := by
    have : (fun kv : String × JSVal =>
        outKey kv.1 (lookupOptions cls.metadata kv.1))
        = fun kv : String × JSVal => kv.1 := by
      funext kv'
      rw [outKey, (hopts kv'.1).1]
    rw [this, fieldKeys]
  have hser : serialize cls.metadata inst
      = (inst : List (String × JSVal)).map
          fun kv => (kv.1, unwrapOption kv.2) := by
    rw [serialize_eq_map cls.metadata inst (by rw [hkeys]; exact hnd), hfun]
  have htk : ∀ key : String, targetKeyFor cls key = key := fun key =>
    targetKeyFor_of_no_rename cls key
      (find?_rename_eq_none cls key fun p hp => (hplain p hp).1)
  rw [hser, deserialize]
  rw [getField_deserialize_go_assigned cls _ (newInstance cls) kv.1
      (unwrapOption kv.2) ?_ ?_ ?_]
  · exact wrapIfOption_unwrapOption cls kv.1 kv.2 (hvals kv hkv).2
  · simpa [fieldKeys] using hnd
  · intro kv' h'
    obtain ⟨kv₀, h₀, rfl⟩ := List.mem_map.mp h'
    exact ⟨htk kv₀.1, (hvals kv₀ h₀).1⟩
  · exact List.mem_map.mpr ⟨kv, hkv, rfl⟩

/-- Witness for C4's amended theorem: a class with a plain field and
an `Option`-typed field holding `Some(1)` round-trips. -/
theorem serde_c4_roundtrip_witness :
    getField (deserialize optSomeClass
        (serialize optSomeClass.metadata
          [("id", .str "x"), ("o", .opt (.num 1))])) "o" = .opt (.num 1) :=
  serde_c4_roundtrip optSomeClass [("id", .str "x"), ("o", .opt (.num 1))]
    (by simp [optSomeClass]) (by decide) (by decide)
    ("o", .opt (.num 1)) (by decide)

/-- C5: `from(source)` builds a zero-argument instance and copies
exactly the source entries whose key is present on the fresh instance,
under identical names: a present key's value is copied (wrapped in the
`Option` type when the field's declared type is `Option` and the value
is not `null`), the field-key set of the result is exactly that of the
fresh instance (no new properties), rename annotations are never
consulted (erasing them changes nothing), and in particular
`from({id: "3", balance: 30000})` yields `id === "3"` and
`balance === 30000` even though `balance` declares a rename. -/
theorem serde_c5_from :
    (∀ (cls : ClassSchema) (source : Fields) (k : String) (v : JSVal),
        ((source : List (String × JSVal)).map Prod.fst).Nodup →
        List.lookup k (source : List (String × JSVal)) = some v →
        k ∈ fieldKeys (newInstance cls) →
        getField (fromFn cls source) k = wrapIfOption cls k v)
    ∧ (∀ (cls : ClassSchema) (source : Fields),
        fieldKeys (fromFn cls source) = fieldKeys (newInstance cls))
    ∧ (∀ (cls : ClassSchema) (source : Fields),
        fromFn (stripCls cls) source = fromFn cls source)
    ∧ getField (fromFn userClass [("id", .str "3"), ("balance", .num 30000)])
        "id" = .str "3"
    ∧ getField (fromFn userClass [("id", .str "3"), ("balance", .num 30000)])
        "balance" = .num 30000 := by
  refine ⟨?_, ?_, ?_, by decide, by decide⟩
  · intro cls source k v hnd hlk hmem
    exact getField_fromFn_go_assigned cls source (newInstance cls) k v hnd
      hlk hmem
  · intro cls source
    exact fieldKeys_fromFn_go cls source (newInstance cls)
  · intro cls source
    rw [fromFn, fromFn]
    rw [show fromStep (stripCls cls) = fromStep cls from rfl]
    rw [show newInstance (stripCls cls) = newInstance cls from
      initInstance_stripRenames cls.metadata cls.ctorFields]

/-- Witness for C5: the copy clause applied at the `from` example's
`id` field. -/
theorem serde_c5_from_witness :
    getField (fromFn userClass [("id", .str "3"), ("balance", .num 30000)])
        "id" = wrapIfOption userClass "id" (.str "3") :=
  serde_c5_from.1 userClass [("id", .str "3"), ("balance", .num 30000)] "id"
    (.str "3") (by decide) rfl (by decide)
